import Mathlib

/-!
Verification of the `OrderProcessor` checkout workflow (file
`src/OrderProcessor.ts`), shallowly embedded in Lean.

Embedding conventions:
* TypeScript `number` values (prices, quantities, totals) are embedded as
  exact rationals `ℚ`; `parseFloat(x.toFixed(2))` is embedded as rounding
  half-away-from-zero at two decimal places on the exact value.
* The three injected collaborator services are embedded as an environment
  `Env` of pure oracles; a `reduceStock` call that raises is an oracle
  answer `some cause`.
* Each method is a function on an explicit `OrderState`; `processOrder`
  additionally returns the list of observable events (collaborator calls
  and console diagnostics) in the order they are performed.
-/

/-- The `paymentStatus` field: `'pending' | 'paid' | 'failed'`. -/
inductive PaymentStatus where
  | pending
  | paid
  | failed
  deriving DecidableEq, Repr

/-- `IOrderItem` from `common/types.ts`. -/
structure OrderItem where
  id : String
  name : String
  price : ℚ
  quantity : ℚ
  deriving DecidableEq, Repr

/-- The mutable fields of an `OrderProcessor` instance. -/
structure OrderState where
  items : List OrderItem
  customerEmail : String
  discountApplied : Bool
  paymentStatus : PaymentStatus
  orderId : String
  deriving DecidableEq, Repr

/-- Observable effects of `processOrder`: collaborator calls and console
diagnostics, in execution order. -/
inductive Event where
  | checkStock (itemId : String) (quantity : ℚ)
  | charge (amount : ℚ) (customerEmail : String) (orderId : String)
  | reduceStock (itemId : String) (quantity : ℚ)
  | paymentFailedNotif (customerEmail : String) (message : String)
  | orderConfirmation (customerEmail : String) (orderId : String)
      (items : List OrderItem) (totalAmount : ℚ) (status : PaymentStatus)
  | logError (message : String)
  | logWarn (message : String)
  | logCriticalError (message : String) (cause : String)
  deriving DecidableEq, Repr

/-- The injected collaborators (`IInventoryService`, `IPaymentGateway`),
as pure oracles.  `reduceStock` answering `some cause` models the call
raising an error with that cause. -/
structure Env where
  checkStock : String → ℚ → Bool
  reduceStock : String → ℚ → Option String
  charge : ℚ → String → String → Bool

/-- Is this event a `charge` call? -/
def Event.isCharge : Event → Bool
  | .charge .. => true
  | _ => false

/-- Is this event a `reduceStock` call? -/
def Event.isReduceStock : Event → Bool
  | .reduceStock .. => true
  | _ => false

/-- Is this event a `sendOrderConfirmation` call? -/
def Event.isOrderConfirmation : Event → Bool
  | .orderConfirmation .. => true
  | _ => false

/-- Is this event a `checkStock` call? -/
def Event.isCheckStock : Event → Bool
  | .checkStock .. => true
  | _ => false

/-- Rounding to the nearest integer, ties away from zero. -/
def roundHalfAway (q : ℚ) : ℤ :=
  if 0 ≤ q then ⌊q + 1 / 2⌋ else ⌈q - 1 / 2⌉

/-- Embedding of `parseFloat(x.toFixed(2))`: round half-away-from-zero to
two decimal places. -/
def round2 (q : ℚ) : ℚ :=
  (roundHalfAway (q * 100) : ℚ) / 100

/-- `calculateTotal()`: reduce over the items, apply the 10% discount when
`discountApplied`, round to two decimals.  Returned in state-passing style
to record that the method does not mutate the state. -/
def calculateTotalM (s : OrderState) : ℚ × OrderState :=
  let total := s.items.foldl (fun sum it => sum + it.price * it.quantity) 0
  let total' := if s.discountApplied then total * (9 / 10) else total
  (round2 total', s)

/-- Bump the quantity of the first item with the given id (the mutation of
the entry returned by `this.items.find(...)`). -/
def updateFirst (itemId : String) (q : ℚ) : List OrderItem → List OrderItem
  | [] => []
  | it :: rest =>
    if it.id = itemId then { it with quantity := it.quantity + q } :: rest
    else it :: updateFirst itemId q rest

/-- `addItem(item)`: reject non-positive quantity or negative price;
merge quantities on an existing id; otherwise push at the end. -/
def addItem (s : OrderState) (item : OrderItem) : OrderState :=
  if item.quantity ≤ 0 ∨ item.price < 0 then s
  else if s.items.any (fun i => i.id = item.id) then
    { s with items := updateFirst item.id item.quantity s.items }
  else
    { s with items := s.items ++ [item] }

/-- Remove the first item with the given id (`findIndex` + `splice(_, 1)`). -/
def removeFirst (itemId : String) : List OrderItem → List OrderItem
  | [] => []
  | it :: rest => if it.id = itemId then rest else it :: removeFirst itemId rest

/-- `removeItem(itemId)`: remove the first matching item; warn-only no-op
when absent. -/
def removeItem (s : OrderState) (itemId : String) : OrderState :=
  if s.items.any (fun i => i.id = itemId) then
    { s with items := removeFirst itemId s.items }
  else s

/-- `applyDiscount(discountCode)`: returns the boolean result paired with
the updated state. -/
def applyDiscount (s : OrderState) (discountCode : String) : Bool × OrderState :=
  if discountCode = "SALE10" ∧ s.discountApplied = false then
    (true, { s with discountApplied := true })
  else
    (false, s)

/-- The stock-check loop of `processOrder`: the `checkStock` events emitted
and, when some check answers `false`, the first failing item. -/
def checkStockLoop (env : Env) : List OrderItem → List Event × Option OrderItem
  | [] => ([], none)
  | it :: rest =>
    if env.checkStock it.id it.quantity then
      let r := checkStockLoop env rest
      (Event.checkStock it.id it.quantity :: r.1, r.2)
    else
      ([Event.checkStock it.id it.quantity], some it)

/-- The stock-reduction loop of `processOrder`: the `reduceStock` events
emitted and, when some call raises, the cause of the first raise (iteration
stops there). -/
def reduceStockLoop (env : Env) : List OrderItem → List Event × Option String
  | [] => ([], none)
  | it :: rest =>
    match env.reduceStock it.id it.quantity with
    | none =>
      let r := reduceStockLoop env rest
      (Event.reduceStock it.id it.quantity :: r.1, r.2)
    | some cause =>
      ([Event.reduceStock it.id it.quantity], some cause)

/-- Step 4 of `processOrder`: reduce stock only when paid, catching a raise
and logging it as a critical error. -/
def runReduce (env : Env) (s : OrderState) : List Event :=
  if s.paymentStatus = PaymentStatus.paid then
    match (reduceStockLoop env s.items).2 with
    | none => (reduceStockLoop env s.items).1
    | some cause =>
      (reduceStockLoop env s.items).1 ++ [Event.logCriticalError
        ("Критическая ошибка: не удалось уменьшить остатки для заказа "
          ++ s.orderId ++ " после оплаты.") cause]
  else []

/-- Steps 4–6 of `processOrder`, entered with the payment-phase state and
the events emitted so far: reduce stock when paid, send the confirmation,
return `true`. -/
def finishOrder (env : Env) (s : OrderState) (totalAmount : ℚ)
    (preEvents : List Event) : Bool × OrderState × List Event :=
  (true, s,
    preEvents ++ runReduce env s ++
      [Event.orderConfirmation s.customerEmail s.orderId s.items totalAmount
        s.paymentStatus])

/-- `processOrder()`: returns the boolean result, the post-state and the
event trace. -/
def processOrder (env : Env) (s : OrderState) : Bool × OrderState × List Event :=
  if s.items.length = 0 then
    (false, s, [Event.logError "Заказ пуст. Невозможно обработать."])
  else
    match (checkStockLoop env s.items).2 with
    | some it =>
      (false, { s with paymentStatus := PaymentStatus.failed },
        (checkStockLoop env s.items).1 ++
          [Event.logError ("Товар " ++ it.name ++ " (ID: " ++ it.id ++
            ") отсутствует на складе в нужном количестве."),
           Event.paymentFailedNotif s.customerEmail
            ("Товар " ++ it.name ++ " отсутствует")])
    | none =>
      if (calculateTotalM s).1 ≤ 0 ∧ 0 < s.items.length then
        finishOrder env { s with paymentStatus := PaymentStatus.paid }
          (calculateTotalM s).1
          ((checkStockLoop env s.items).1 ++ [Event.logWarn
            "Общая сумма заказа равна 0, но товары есть. Пропускаем оплату."])
      else if 0 < (calculateTotalM s).1 then
        if env.charge (calculateTotalM s).1 s.customerEmail s.orderId then
          finishOrder env { s with paymentStatus := PaymentStatus.paid }
            (calculateTotalM s).1
            ((checkStockLoop env s.items).1 ++
              [Event.charge (calculateTotalM s).1 s.customerEmail s.orderId])
        else
          (false, { s with paymentStatus := PaymentStatus.failed },
            (checkStockLoop env s.items).1 ++
              [Event.charge (calculateTotalM s).1 s.customerEmail s.orderId,
               Event.logError ("Оплата заказа " ++ s.orderId ++ " не удалась."),
               Event.paymentFailedNotif s.customerEmail s.orderId])
      else
        finishOrder env s (calculateTotalM s).1 (checkStockLoop env s.items).1

/-- The public state-mutating operations of the coordinator. -/
inductive Op where
  | addItem (item : OrderItem)
  | removeItem (itemId : String)
  | applyDiscount (code : String)
  | checkout (env : Env)

/-- Is this operation a `checkout()` invocation? -/
def Op.isCheckout : Op → Bool
  | .checkout _ => true
  | _ => false

/-- Apply one public operation to the state. -/
def applyOp (s : OrderState) : Op → OrderState
  | .addItem item => addItem s item
  | .removeItem itemId => removeItem s itemId
  | .applyDiscount code => (applyDiscount s code).2
  | .checkout env => (processOrder env s).2.1

/-- Run a sequence of public operations. -/
def runOps (s : OrderState) (ops : List Op) : OrderState :=
  ops.foldl applyOp s

/-- The state of a freshly constructed coordinator (valid email assumed). -/
def initialState (email oid : String) : OrderState :=
  { items := [], customerEmail := email, discountApplied := false,
    paymentStatus := PaymentStatus.pending, orderId := oid }

/-- The spec's description of `calculateTotal`: the sum over all items of
`unitPrice × quantity`, discounted by 10% when the flag is set, rounded
half-away-from-zero to two decimals. -/
def calculateTotalSpec (s : OrderState) : ℚ :=
  let raw := (s.items.map (fun it => it.price * it.quantity)).sum
  round2 (if s.discountApplied then raw * (9 / 10) else raw)

/-! Concrete material used to evaluate the definitions on sample inputs. -/

/-- A sample item: id `a`, price 2, quantity 1. -/
def witnessItemA : OrderItem :=
  { id := "a", name := "A", price := 2, quantity := 1 }

/-- A sample item: id `b`, price 3, quantity 2. -/
def witnessItemB : OrderItem :=
  { id := "b", name := "B", price := 3, quantity := 2 }

/-- A sample pre-checkout state with two items. -/
def witnessState : OrderState :=
  { items := [witnessItemA, witnessItemB], customerEmail := "user@example.com",
    discountApplied := false, paymentStatus := PaymentStatus.pending,
    orderId := "oid-1" }

/-- A sample state holding a single zero-priced item. -/
def zeroPriceState : OrderState :=
  { items := [{ id := "free", name := "Free", price := 0, quantity := 1 }],
    customerEmail := "user@example.com", discountApplied := false,
    paymentStatus := PaymentStatus.pending, orderId := "oid-2" }

/-- The rounding example of the spec: items priced 33.333 and 66.666 at
quantity 1. -/
def roundingExampleState : OrderState :=
  { items :=
      [{ id := "item1", name := "I1", price := 33333 / 1000, quantity := 1 },
       { id := "item2", name := "I2", price := 66666 / 1000, quantity := 1 }],
    customerEmail := "user@example.com", discountApplied := false,
    paymentStatus := PaymentStatus.pending, orderId := "oid-3" }

/-- An environment where every collaborator call succeeds. -/
def envAllOk : Env :=
  { checkStock := fun _ _ => true, reduceStock := fun _ _ => none,
    charge := fun _ _ _ => true }

/-- An environment where every stock check answers `false`. -/
def envOutOfStock : Env :=
  { checkStock := fun _ _ => false, reduceStock := fun _ _ => none,
    charge := fun _ _ _ => true }

/-- An environment where only item `a` is in stock. -/
def envStockFailB : Env :=
  { checkStock := fun i _ => i == "a", reduceStock := fun _ _ => none,
    charge := fun _ _ _ => true }

/-- An environment where the charge is declined. -/
def envChargeFail : Env :=
  { checkStock := fun _ _ => true, reduceStock := fun _ _ => none,
    charge := fun _ _ _ => false }

/-- An environment where reducing the stock of item `a` raises. -/
def envReduceFail : Env :=
  { checkStock := fun _ _ => true,
    reduceStock := fun i _ => if i == "a" then some "db down" else none,
    charge := fun _ _ _ => true }

/-! ## Helper lemmas -/

theorem foldl_price_eq (l : List OrderItem) (a : ℚ) :
    l.foldl (fun sum it => sum + it.price * it.quantity) a
      = a + (l.map (fun it => it.price * it.quantity)).sum := by
  induction l generalizing a with
  | nil => simp
  | cons hd tl ih => simp [List.foldl_cons, ih, add_assoc]

/-! ## C6: calculateTotal -/

/-- C6: `calculateTotal()` equals the sum over all stored items of
`unitPrice × quantity`, multiplied by 0.9 when `discountApplied`, rounded
half-away-from-zero to two decimal places (items priced 33.333 and 66.666
at quantity 1 total exactly 100), and it leaves the state unchanged. -/
theorem calculateTotal_refines_spec :
    (∀ s : OrderState,
      (calculateTotalM s).1 = calculateTotalSpec s ∧ (calculateTotalM s).2 = s) ∧
    (calculateTotalM roundingExampleState).1 = 100 := by
  constructor
  · intro s
    refine ⟨?_, rfl⟩
    simp [calculateTotalM, calculateTotalSpec, foldl_price_eq]
  · norm_num [calculateTotalM, roundingExampleState, round2, roundHalfAway]

/-! ## C7: addItem -/

theorem exists_first_id (itemId : String) (l : List OrderItem)
    (h : l.any (fun i => i.id = itemId) = true) :
    ∃ pre e post, l = pre ++ e :: post ∧ (∀ x ∈ pre, x.id ≠ itemId) ∧
      e.id = itemId := by
  induction l with
  | nil => simp at h
  | cons hd tl ih =>
    by_cases hid : hd.id = itemId
    · exact ⟨[], hd, tl, rfl, by simp, hid⟩
    · have h' : tl.any (fun i => i.id = itemId) = true := by
        simpa [List.any_cons, hid] using h
      obtain ⟨pre, e, post, rfl, hpre, he⟩ := ih h'
      refine ⟨hd :: pre, e, post, rfl, ?_, he⟩
      intro x hx
      rcases List.mem_cons.mp hx with rfl | hx
      · exact hid
      · exact hpre x hx

theorem updateFirst_of_first (itemId : String) (q : ℚ) (pre : List OrderItem)
    (e : OrderItem) (post : List OrderItem)
    (hpre : ∀ x ∈ pre, x.id ≠ itemId) (he : e.id = itemId) :
    updateFirst itemId q (pre ++ e :: post) =
      pre ++ { e with quantity := e.quantity + q } :: post := by
  induction pre with
  | nil => simp [updateFirst, he]
  | cons hd tl ih =>
    have hhd : hd.id ≠ itemId := hpre hd (by simp)
    have htl := ih (fun x hx => hpre x (by simp [hx]))
    simp [updateFirst, hhd, htl, List.append_eq]

theorem updateFirst_map_id (itemId : String) (q : ℚ) (l : List OrderItem) :
    (updateFirst itemId q l).map (fun x => x.id) = l.map (fun x => x.id) := by
  induction l with
  | nil => rfl
  | cons hd tl ih =>
    by_cases h : hd.id = itemId <;> simp [updateFirst, h, ih]

theorem updateFirst_valid (itemId : String) (q : ℚ) (hq : 0 < q)
    (l : List OrderItem) (h : ∀ x ∈ l, 0 < x.quantity ∧ 0 ≤ x.price) :
    ∀ x ∈ updateFirst itemId q l, 0 < x.quantity ∧ 0 ≤ x.price := by
  induction l with
  | nil => simp [updateFirst]
  | cons hd tl ih =>
    intro x hx
    by_cases hid : hd.id = itemId
    · simp only [updateFirst, if_pos hid, List.mem_cons] at hx
      rcases hx with rfl | hx
      · obtain ⟨h1, h2⟩ := h hd (by simp)
        exact ⟨add_pos h1 hq, h2⟩
      · exact h x (by simp [hx])
    · simp only [updateFirst, if_neg hid, List.mem_cons] at hx
      rcases hx with rfl | hx
      · exact h x (by simp)
      · exact ih (fun y hy => h y (by simp [hy])) x hx

/-- C7: `addItem` rejects items with `quantity ≤ 0` or `price < 0` leaving
the state unchanged (hence the stored-item invariant `quantity > 0 ∧
price ≥ 0` is preserved); on an existing id it only bumps that first
entry's quantity, keeping its price; otherwise it appends the item at the
end; and it keeps at most one entry per id. -/
theorem addItem_correct (s : OrderState) (item : OrderItem) :
    (item.quantity ≤ 0 ∨ item.price < 0 → addItem s item = s) ∧
    ((∀ x ∈ s.items, 0 < x.quantity ∧ 0 ≤ x.price) →
      ∀ x ∈ (addItem s item).items, 0 < x.quantity ∧ 0 ≤ x.price) ∧
    (0 < item.quantity → 0 ≤ item.price →
      s.items.any (fun i => i.id = item.id) = true →
      ∃ pre e post, s.items = pre ++ e :: post ∧
        (∀ x ∈ pre, x.id ≠ item.id) ∧ e.id = item.id ∧
        (addItem s item).items =
          pre ++ { e with quantity := e.quantity + item.quantity } :: post) ∧
    (0 < item.quantity → 0 ≤ item.price →
      s.items.any (fun i => i.id = item.id) = false →
      (addItem s item).items = s.items ++ [item]) ∧
    ((s.items.map (fun x => x.id)).Nodup →
      ((addItem s item).items.map (fun x => x.id)).Nodup) := by
  refine ⟨?_, ?_, ?_, ?_, ?_⟩
  · intro h
    simp [addItem, h]
  · intro hinv x hx
    by_cases hbad : item.quantity ≤ 0 ∨ item.price < 0
    · rw [addItem, if_pos hbad] at hx
      exact hinv x hx
    · push_neg at hbad
      obtain ⟨hq, hp⟩ := hbad
      rw [addItem, if_neg (by push_neg; exact ⟨hq, hp⟩)] at hx
      by_cases hex : s.items.any (fun i => i.id = item.id) = true
      · rw [if_pos hex] at hx
        exact updateFirst_valid item.id item.quantity hq s.items hinv x hx
      · rw [if_neg hex] at hx
        simp only [List.mem_append, List.mem_singleton] at hx
        rcases hx with hx | rfl
        · exact hinv x hx
        · exact ⟨hq, hp⟩
  · intro hq hp hex
    obtain ⟨pre, e, post, hsplit, hpre, he⟩ := exists_first_id item.id s.items hex
    refine ⟨pre, e, post, hsplit, hpre, he, ?_⟩
    rw [addItem, if_neg (by push_neg; exact ⟨hq, hp⟩), if_pos hex]
    simp only
    rw [hsplit, updateFirst_of_first item.id item.quantity pre e post hpre he]
  · intro hq hp hex
    rw [addItem, if_neg (by push_neg; exact ⟨hq, hp⟩), if_neg (by simp [hex])]
  · intro hnd
    by_cases hbad : item.quantity ≤ 0 ∨ item.price < 0
    · rw [addItem, if_pos hbad]; exact hnd
    · rw [addItem, if_neg hbad]
      by_cases hex : s.items.any (fun i => i.id = item.id) = true
      · rw [if_pos hex]
        simp only [updateFirst_map_id]
        exact hnd
      · rw [if_neg hex]
        simp only [List.map_append, List.map_singleton]
        rw [List.nodup_append]
        refine ⟨hnd, List.nodup_singleton _, ?_⟩
        intro a ha
        simp only [List.mem_singleton]
        intro rfl_eq
        subst rfl_eq
        simp only [List.mem_map] at ha
        obtain ⟨x, hx, hxid⟩ := ha
        have : s.items.any (fun i => i.id = item.id) = true :=
          List.any_eq_true.mpr ⟨x, hx, by simp [hxid]⟩
        exact hex this

/-- Concrete instantiation of `addItem_correct`: a zero-quantity item is
rejected and the state is unchanged. -/
theorem addItem_correct_witness :
    addItem witnessState { id := "z", name := "Z", price := 5, quantity := 0 }
      = witnessState :=
  (addItem_correct witnessState _).1 (Or.inl (by norm_num))

/-! ## C8: applyDiscount -/

/-- C8: `applyDiscount(code)` returns `true` and sets `discountApplied` iff
`code = "SALE10"` and no discount is applied yet; otherwise it returns
`false` with no state change.  A second `applyDiscount("SALE10")` returns
`false`, leaves the state unchanged, and the resulting total carries the
factor 0.9 exactly once. -/
theorem applyDiscount_correct (s : OrderState) (code : String) :
    (code = "SALE10" ∧ s.discountApplied = false →
      applyDiscount s code = (true, { s with discountApplied := true })) ∧
    (¬(code = "SALE10" ∧ s.discountApplied = false) →
      applyDiscount s code = (false, s)) ∧
    ((applyDiscount (applyDiscount s "SALE10").2 "SALE10").1 = false ∧
      (applyDiscount (applyDiscount s "SALE10").2 "SALE10").2 =
        (applyDiscount s "SALE10").2) ∧
    (calculateTotalM (applyDiscount (applyDiscount s "SALE10").2 "SALE10").2).1 =
      round2 ((s.items.map (fun it => it.price * it.quantity)).sum * (9 / 10)) := by
  refine ⟨?_, ?_, ?_, ?_⟩
  · intro h
    simp [applyDiscount, h.1, h.2]
  · intro h
    simp only [applyDiscount, if_neg h]
  · by_cases hd : s.discountApplied = false
    · simp [applyDiscount, hd]
    · simp [applyDiscount, hd]
  · by_cases hd : s.discountApplied = false
    · simp [applyDiscount, hd, calculateTotalM, foldl_price_eq]
    · simp only [Bool.not_eq_false] at hd
      simp [applyDiscount, hd, calculateTotalM, foldl_price_eq]

/-- Concrete instantiation of `applyDiscount_correct`: the valid code on a
fresh state succeeds and sets the flag. -/
theorem applyDiscount_correct_witness :
    applyDiscount witnessState "SALE10" =
      (true, { witnessState with discountApplied := true }) :=
  (applyDiscount_correct witnessState "SALE10").1 ⟨rfl, rfl⟩

/-! ## C9: checkout on an empty order -/

/-- C9: on an empty item collection, `checkout()` returns `false`
immediately with the state unchanged, and the only emitted event is the
"order empty" diagnostic — no collaborator is invoked. -/
theorem processOrder_empty (env : Env) (s : OrderState) (h : s.items = []) :
    processOrder env s =
      (false, s, [Event.logError "Заказ пуст. Невозможно обработать."]) := by
  simp [processOrder, h]

/-- Concrete instantiation of `processOrder_empty` on a freshly constructed
coordinator. -/
theorem processOrder_empty_witness :
    processOrder envAllOk (initialState "user@example.com" "oid-0") =
      (false, initialState "user@example.com" "oid-0",
        [Event.logError "Заказ пуст. Невозможно обработать."]) :=
  processOrder_empty envAllOk (initialState "user@example.com" "oid-0") rfl

/-! ## Loop characterizations -/

theorem checkStockLoop_allPass (env : Env) (l : List OrderItem)
    (h : ∀ x ∈ l, env.checkStock x.id x.quantity = true) :
    checkStockLoop env l =
      (l.map (fun x => Event.checkStock x.id x.quantity), none) := by
  induction l with
  | nil => rfl
  | cons hd tl ih =>
    have hhd := h hd (by simp)
    have htl := ih (fun x hx => h x (by simp [hx]))
    simp [checkStockLoop, hhd, htl]

theorem checkStockLoop_firstFail (env : Env) (pre : List OrderItem)
    (it : OrderItem) (post : List OrderItem)
    (hpre : ∀ x ∈ pre, env.checkStock x.id x.quantity = true)
    (hit : env.checkStock it.id it.quantity = false) :
    checkStockLoop env (pre ++ it :: post) =
      ((pre ++ [it]).map (fun x => Event.checkStock x.id x.quantity), some it) := by
  induction pre with
  | nil => simp [checkStockLoop, hit]
  | cons hd tl ih =>
    have hhd := hpre hd (by simp)
    have htl := ih (fun x hx => hpre x (by simp [hx]))
    simp [checkStockLoop, hhd, htl]

theorem exists_firstFail_check (env : Env) (l : List OrderItem)
    (h : ∃ x ∈ l, env.checkStock x.id x.quantity = false) :
    ∃ pre it post, l = pre ++ it :: post ∧
      (∀ x ∈ pre, env.checkStock x.id x.quantity = true) ∧
      env.checkStock it.id it.quantity = false := by
  induction l with
  | nil => simp at h
  | cons hd tl ih =>
    cases hhd : env.checkStock hd.id hd.quantity with
    | false => exact ⟨[], hd, tl, rfl, by simp, hhd⟩
    | true =>
      have h' : ∃ x ∈ tl, env.checkStock x.id x.quantity = false := by
        rcases h with ⟨x, hx, hfx⟩
        rcases List.mem_cons.mp hx with rfl | hx
        · rw [hhd] at hfx; cases hfx
        · exact ⟨x, hx, hfx⟩
      obtain ⟨pre, it, post, rfl, hpre, hit⟩ := ih h'
      refine ⟨hd :: pre, it, post, rfl, ?_, hit⟩
      intro x hx
      rcases List.mem_cons.mp hx with rfl | hx
      · exact hhd
      · exact hpre x hx

theorem reduceStockLoop_firstFail (env : Env) (pre : List OrderItem)
    (it : OrderItem) (post : List OrderItem) (cause : String)
    (hpre : ∀ x ∈ pre, env.reduceStock x.id x.quantity = none)
    (hit : env.reduceStock it.id it.quantity = some cause) :
    reduceStockLoop env (pre ++ it :: post) =
      ((pre ++ [it]).map (fun x => Event.reduceStock x.id x.quantity),
        some cause) := by
  induction pre with
  | nil => simp [reduceStockLoop, hit]
  | cons hd tl ih =>
    have hhd := hpre hd (by simp)
    have htl := ih (fun x hx => hpre x (by simp [hx]))
    simp [reduceStockLoop, hhd, htl]

theorem exists_firstFail_reduce (env : Env) (l : List OrderItem)
    (h : ∃ x ∈ l, env.reduceStock x.id x.quantity ≠ none) :
    ∃ pre it post cause, l = pre ++ it :: post ∧
      (∀ x ∈ pre, env.reduceStock x.id x.quantity = none) ∧
      env.reduceStock it.id it.quantity = some cause := by
  induction l with
  | nil => simp at h
  | cons hd tl ih =>
    cases hhd : env.reduceStock hd.id hd.quantity with
    | some cause => exact ⟨[], hd, tl, cause, rfl, by simp, hhd⟩
    | none =>
      have h' : ∃ x ∈ tl, env.reduceStock x.id x.quantity ≠ none := by
        rcases h with ⟨x, hx, hfx⟩
        rcases List.mem_cons.mp hx with rfl | hx
        · exact absurd hhd hfx
        · exact ⟨x, hx, hfx⟩
      obtain ⟨pre, it, post, cause, rfl, hpre, hit⟩ := ih h'
      refine ⟨hd :: pre, it, post, cause, rfl, ?_, hit⟩
      intro x hx
      rcases List.mem_cons.mp hx with rfl | hx
      · exact hhd
      · exact hpre x hx

theorem checkStockLoop_events_shape (env : Env) (l : List OrderItem) :
    ∀ e ∈ (checkStockLoop env l).1, e.isCheckStock = true := by
  induction l with
  | nil => simp [checkStockLoop]
  | cons hd tl ih =>
    intro e he
    cases hhd : env.checkStock hd.id hd.quantity with
    | false =>
      simp only [checkStockLoop, hhd, Bool.false_eq_true, if_false,
        List.mem_singleton] at he
      subst he; rfl
    | true =>
      simp only [checkStockLoop, hhd, if_true, List.mem_cons] at he
      rcases he with rfl | he
      · rfl
      · exact ih e he

theorem reduceStockLoop_events_shape (env : Env) (l : List OrderItem) :
    ∀ e ∈ (reduceStockLoop env l).1, e.isReduceStock = true := by
  induction l with
  | nil => simp [reduceStockLoop]
  | cons hd tl ih =>
    intro e he
    cases hhd : env.reduceStock hd.id hd.quantity with
    | some cause =>
      simp only [reduceStockLoop, hhd, List.mem_singleton] at he
      subst he; rfl
    | none =>
      simp only [reduceStockLoop, hhd, List.mem_cons] at he
      rcases he with rfl | he
      · rfl
      · exact ih e he

theorem runReduce_events_shape (env : Env) (s : OrderState) :
    ∀ e ∈ runReduce env s,
      e.isCharge = false ∧ e.isCheckStock = false ∧
        e.isOrderConfirmation = false := by
  intro e he
  rw [runReduce] at he
  split at he
  · split at he
    · have := reduceStockLoop_events_shape env s.items e he
      cases e <;> simp_all [Event.isReduceStock, Event.isCharge,
        Event.isCheckStock, Event.isOrderConfirmation]
    · simp only [List.mem_append, List.mem_singleton] at he
      rcases he with he | rfl
      · have := reduceStockLoop_events_shape env s.items e he
        cases e <;> simp_all [Event.isReduceStock, Event.isCharge,
          Event.isCheckStock, Event.isOrderConfirmation]
      · exact ⟨rfl, rfl, rfl⟩
  · simp at he

/-! ## Frame and status lemmas -/

theorem processOrder_frame (env : Env) (s : OrderState) :
    (processOrder env s).2.1.items = s.items ∧
    (processOrder env s).2.1.customerEmail = s.customerEmail ∧
    (processOrder env s).2.1.discountApplied = s.discountApplied ∧
    (processOrder env s).2.1.orderId = s.orderId := by
  unfold processOrder finishOrder
  repeat' split
  all_goals exact ⟨rfl, rfl, rfl, rfl⟩

theorem processOrder_status_cases (env : Env) (s : OrderState) :
    (processOrder env s).2.1.paymentStatus = s.paymentStatus ∨
    (processOrder env s).2.1.paymentStatus = PaymentStatus.failed ∨
    (processOrder env s).2.1.paymentStatus = PaymentStatus.paid := by
  unfold processOrder finishOrder
  repeat' split
  · exact Or.inl rfl
  · exact Or.inr (Or.inl rfl)
  · exact Or.inr (Or.inr rfl)
  · exact Or.inr (Or.inr rfl)
  · exact Or.inr (Or.inl rfl)
  · exact Or.inl rfl

theorem addItem_paymentStatus (s : OrderState) (item : OrderItem) :
    (addItem s item).paymentStatus = s.paymentStatus := by
  unfold addItem
  repeat' split
  all_goals rfl

theorem removeItem_paymentStatus (s : OrderState) (itemId : String) :
    (removeItem s itemId).paymentStatus = s.paymentStatus := by
  unfold removeItem
  split
  all_goals rfl

theorem applyDiscount_paymentStatus (s : OrderState) (code : String) :
    ((applyDiscount s code).2).paymentStatus = s.paymentStatus := by
  unfold applyDiscount
  split
  all_goals rfl

/-! ## C10: failure leaves everything but paymentStatus unchanged -/

/-- C10: whenever `checkout()` returns `false`, the item list,
`discountApplied`, `customerEmail` and `orderId` are unchanged, and in the
empty-order case `paymentStatus` is unchanged as well. -/
theorem checkout_failure_frame (env : Env) (s : OrderState)
    (_h : (processOrder env s).1 = false) :
    (processOrder env s).2.1.items = s.items ∧
    (processOrder env s).2.1.discountApplied = s.discountApplied ∧
    (processOrder env s).2.1.customerEmail = s.customerEmail ∧
    (processOrder env s).2.1.orderId = s.orderId ∧
    (s.items = [] → (processOrder env s).2.1.paymentStatus = s.paymentStatus) := by
  obtain ⟨h1, h2, h3, h4⟩ := processOrder_frame env s
  refine ⟨h1, h3, h2, h4, ?_⟩
  intro hnil
  simp [processOrder, hnil]

/-- Concrete instantiation of `checkout_failure_frame`: a declined stock
check leaves everything but the payment status unchanged. -/
theorem checkout_failure_frame_witness :
    (processOrder envStockFailB witnessState).2.1.items = witnessState.items ∧
    (processOrder envStockFailB witnessState).2.1.discountApplied =
      witnessState.discountApplied := by
  have h := checkout_failure_frame envStockFailB witnessState
    (by simp [processOrder, witnessState, witnessItemA, witnessItemB,
      checkStockLoop, envStockFailB])
  exact ⟨h.1, h.2.1⟩

/-! ## C4: the paymentStatus state machine -/

/-- C4 is false as stated: `paid` is not terminal.  After a successful
checkout the status is `paid`, yet a second `checkout()` invocation whose
stock check fails moves it to `failed`. -/
theorem paymentStatus_paid_not_terminal :
    (runOps (initialState "user@example.com" "oid-4")
        [Op.addItem witnessItemA, Op.checkout envAllOk]).paymentStatus =
      PaymentStatus.paid ∧
    (runOps (initialState "user@example.com" "oid-4")
        [Op.addItem witnessItemA, Op.checkout envAllOk,
         Op.checkout envOutOfStock]).paymentStatus = PaymentStatus.failed := by
  norm_num [runOps, applyOp, addItem, initialState, witnessItemA, processOrder,
    checkStockLoop, envAllOk, envOutOfStock, finishOrder, runReduce,
    reduceStockLoop, calculateTotalM, round2, roundHalfAway]

/-- C4 amended: no operation ever moves `paymentStatus` back to `pending`,
and only `checkout()` changes it at all — so within the spec's intended
lifecycle of at most one `checkout()` per order the transitions are exactly
`pending → paid` and `pending → failed`; repeated `checkout()` invocations,
however, may move the status between `paid` and `failed`. -/
theorem paymentStatus_transition_discipline (s : OrderState) (op : Op) :
    ((applyOp s op).paymentStatus = PaymentStatus.pending →
      s.paymentStatus = PaymentStatus.pending) ∧
    (op.isCheckout = false → (applyOp s op).paymentStatus = s.paymentStatus) := by
  cases op with
  | addItem item =>
    exact ⟨fun h => (addItem_paymentStatus s item) ▸ h,
      fun _ => addItem_paymentStatus s item⟩
  | removeItem itemId =>
    exact ⟨fun h => (removeItem_paymentStatus s itemId) ▸ h,
      fun _ => removeItem_paymentStatus s itemId⟩
  | applyDiscount code =>
    exact ⟨fun h => (applyDiscount_paymentStatus s code) ▸ h,
      fun _ => applyDiscount_paymentStatus s code⟩
  | checkout env =>
    refine ⟨fun h => ?_, fun h => by cases h⟩
    rcases processOrder_status_cases env s with hc | hc | hc
    · rw [applyOp] at h
      rw [← hc, h]
    · rw [applyOp] at h
      rw [hc] at h
      cases h
    · rw [applyOp] at h
      rw [hc] at h
      cases h

/-- Concrete instantiation of `paymentStatus_transition_discipline`:
`applyDiscount` never changes the payment status. -/
theorem paymentStatus_transition_discipline_witness :
    (applyOp witnessState (Op.applyDiscount "SALE10")).paymentStatus =
      witnessState.paymentStatus :=
  (paymentStatus_transition_discipline witnessState
    (Op.applyDiscount "SALE10")).2 rfl

/-! ## C1: checkout with a failing stock check -/

/-- C1: on a non-empty order where some stock check answers `false`,
`checkout()` returns `false` with `paymentStatus = failed`; stock checks
are performed for exactly the items up to and including the first failing
one in insertion order; the only further events are the diagnostic error
and a payment-failure notification naming the out-of-stock item — in
particular no charge, no stock reduction and no confirmation happen. -/
theorem checkout_outOfStock (env : Env) (s : OrderState)
    (hne : s.items ≠ [])
    (hfail : ∃ x ∈ s.items, env.checkStock x.id x.quantity = false) :
    (processOrder env s).1 = false ∧
    (processOrder env s).2.1.paymentStatus = PaymentStatus.failed ∧
    (∃ pre it post,
      s.items = pre ++ it :: post ∧
      (∀ x ∈ pre, env.checkStock x.id x.quantity = true) ∧
      env.checkStock it.id it.quantity = false ∧
      (processOrder env s).2.2 =
        (pre ++ [it]).map (fun x => Event.checkStock x.id x.quantity) ++
          [Event.logError ("Товар " ++ it.name ++ " (ID: " ++ it.id ++
            ") отсутствует на складе в нужном количестве."),
           Event.paymentFailedNotif s.customerEmail
            ("Товар " ++ it.name ++ " отсутствует")]) ∧
    (∀ e ∈ (processOrder env s).2.2,
      e.isCharge = false ∧ e.isReduceStock = false ∧
        e.isOrderConfirmation = false) := by
  obtain ⟨pre, it, post, hsplit, hpre, hit⟩ :=
    exists_firstFail_check env s.items hfail
  have hlen : ¬ s.items.length = 0 := by
    simp [List.length_eq_zero, hne]
  have hloop := checkStockLoop_firstFail env pre it post hpre hit
  rw [← hsplit] at hloop
  have hpo : processOrder env s =
      (false, { s with paymentStatus := PaymentStatus.failed },
        (pre ++ [it]).map (fun x => Event.checkStock x.id x.quantity) ++
          [Event.logError ("Товар " ++ it.name ++ " (ID: " ++ it.id ++
            ") отсутствует на складе в нужном количестве."),
           Event.paymentFailedNotif s.customerEmail
            ("Товар " ++ it.name ++ " отсутствует")]) := by
    rw [processOrder, if_neg hlen, hloop]
  refine ⟨by rw [hpo], by rw [hpo], ⟨pre, it, post, hsplit, hpre, hit, by rw [hpo]⟩, ?_⟩
  intro e he
  rw [hpo] at he
  simp only [List.mem_append, List.mem_map, List.mem_cons,
    List.mem_singleton, List.not_mem_nil, or_false] at he
  rcases he with ⟨x, _, rfl⟩ | rfl | rfl
  · exact ⟨rfl, rfl, rfl⟩
  · exact ⟨rfl, rfl, rfl⟩
  · exact ⟨rfl, rfl, rfl⟩

/-- Concrete instantiation of `checkout_outOfStock`: item `b` is out of
stock, checkout fails and the status is `failed`. -/
theorem checkout_outOfStock_witness :
    (processOrder envStockFailB witnessState).1 = false ∧
    (processOrder envStockFailB witnessState).2.1.paymentStatus =
      PaymentStatus.failed := by
  have h := checkout_outOfStock envStockFailB witnessState
    (by simp [witnessState])
    ⟨witnessItemB, by simp [witnessState], by simp [envStockFailB, witnessItemB]⟩
  exact ⟨h.1, h.2.1⟩

/-! ## C2: checkout with a positive total -/

/-- C2: on a non-empty order with all stock checks passing and a positive
computed total, a declined charge makes `checkout()` return `false` with
`paymentStatus = failed`, no stock reduction and no confirmation, and a
payment-failure notification carrying the orderId; a successful charge
sets `paymentStatus = paid`. -/
theorem checkout_charge_outcome (env : Env) (s : OrderState)
    (hne : s.items ≠ [])
    (hstock : ∀ x ∈ s.items, env.checkStock x.id x.quantity = true)
    (hpos : 0 < (calculateTotalM s).1) :
    (env.charge (calculateTotalM s).1 s.customerEmail s.orderId = false →
      (processOrder env s).1 = false ∧
      (processOrder env s).2.1.paymentStatus = PaymentStatus.failed ∧
      (∀ e ∈ (processOrder env s).2.2,
        e.isReduceStock = false ∧ e.isOrderConfirmation = false) ∧
      Event.paymentFailedNotif s.customerEmail s.orderId ∈
        (processOrder env s).2.2) ∧
    (env.charge (calculateTotalM s).1 s.customerEmail s.orderId = true →
      (processOrder env s).2.1.paymentStatus = PaymentStatus.paid) := by
  have hlen : ¬ s.items.length = 0 := by
    simp [List.length_eq_zero, hne]
  have hloop := checkStockLoop_allPass env s.items hstock
  have hnotle : ¬ ((calculateTotalM s).1 ≤ 0) := not_le.mpr hpos
  constructor
  · intro hch
    have hpo : processOrder env s =
        (false, { s with paymentStatus := PaymentStatus.failed },
          s.items.map (fun x => Event.checkStock x.id x.quantity) ++
            [Event.charge (calculateTotalM s).1 s.customerEmail s.orderId,
             Event.logError ("Оплата заказа " ++ s.orderId ++ " не удалась."),
             Event.paymentFailedNotif s.customerEmail s.orderId]) := by
      simp [processOrder, hlen, hloop, hnotle, hpos, hch]
    refine ⟨by rw [hpo], by rw [hpo], ?_, ?_⟩
    · intro e he
      rw [hpo] at he
      simp only [List.mem_append, List.mem_map, List.mem_cons,
        List.mem_singleton, List.not_mem_nil, or_false] at he
      rcases he with ⟨x, _, rfl⟩ | rfl | rfl | rfl
      · exact ⟨rfl, rfl⟩
      · exact ⟨rfl, rfl⟩
      · exact ⟨rfl, rfl⟩
      · exact ⟨rfl, rfl⟩
    · rw [hpo]
      simp
  · intro hch
    have hpo : processOrder env s =
        finishOrder env { s with paymentStatus := PaymentStatus.paid }
          (calculateTotalM s).1
          (s.items.map (fun x => Event.checkStock x.id x.quantity) ++
            [Event.charge (calculateTotalM s).1 s.customerEmail s.orderId]) := by
      simp [processOrder, hlen, hloop, hnotle, hpos, hch]
    rw [hpo, finishOrder]

/-- Concrete instantiation of `checkout_charge_outcome`: a declined charge
on the two-item sample order fails the checkout. -/
theorem checkout_charge_outcome_witness :
    (processOrder envChargeFail witnessState).1 = false ∧
    (processOrder envChargeFail witnessState).2.1.paymentStatus =
      PaymentStatus.failed := by
  have h := (checkout_charge_outcome envChargeFail witnessState
    (by simp [witnessState])
    (by intro x hx; rfl)
    (by norm_num [calculateTotalM, witnessState, witnessItemA, witnessItemB,
      round2, roundHalfAway])).1 rfl
  exact ⟨h.1, h.2.1⟩

theorem isCheckStock_shapes (e : Event) (h : e.isCheckStock = true) :
    e.isCharge = false ∧ e.isReduceStock = false ∧
      e.isOrderConfirmation = false := by
  cases e <;> simp_all [Event.isCheckStock, Event.isCharge,
    Event.isReduceStock, Event.isOrderConfirmation]

/-! ## C5: checkout with a zero total -/

/-- C5: on a non-empty order with all stock checks passing and a computed
total of exactly 0, `checkout()` never charges, sets
`paymentStatus = paid`, emits the payment-skipped warning, sends a
confirmation with `totalAmount = 0`, and returns `true`. -/
theorem checkout_zeroTotal (env : Env) (s : OrderState)
    (hne : s.items ≠ [])
    (hstock : ∀ x ∈ s.items, env.checkStock x.id x.quantity = true)
    (hzero : (calculateTotalM s).1 = 0) :
    (processOrder env s).1 = true ∧
    (processOrder env s).2.1.paymentStatus = PaymentStatus.paid ∧
    (∀ e ∈ (processOrder env s).2.2, e.isCharge = false) ∧
    Event.logWarn "Общая сумма заказа равна 0, но товары есть. Пропускаем оплату." ∈
      (processOrder env s).2.2 ∧
    Event.orderConfirmation s.customerEmail s.orderId s.items 0
      PaymentStatus.paid ∈ (processOrder env s).2.2 := by
  have hlen : ¬ s.items.length = 0 := by
    simp [List.length_eq_zero, hne]
  have hlenpos : 0 < s.items.length := List.length_pos.mpr hne
  have hloop := checkStockLoop_allPass env s.items hstock
  have hpo : processOrder env s =
      finishOrder env { s with paymentStatus := PaymentStatus.paid } 0
        (s.items.map (fun x => Event.checkStock x.id x.quantity) ++
          [Event.logWarn
            "Общая сумма заказа равна 0, но товары есть. Пропускаем оплату."]) := by
    simp [processOrder, hlen, hloop, hzero, hlenpos]
  rw [hpo, finishOrder]
  refine ⟨rfl, rfl, ?_, ?_, ?_⟩
  · intro e he
    simp only [List.append_assoc, List.mem_append, List.mem_map,
      List.mem_cons, List.mem_singleton, List.not_mem_nil, or_false] at he
    rcases he with ⟨x, _, rfl⟩ | rfl | he | rfl
    · rfl
    · rfl
    · exact (runReduce_events_shape env _ e he).1
    · rfl
  · simp
  · simp

/-- Concrete instantiation of `checkout_zeroTotal` on a single zero-priced
item. -/
theorem checkout_zeroTotal_witness :
    (processOrder envAllOk zeroPriceState).1 = true ∧
    (processOrder envAllOk zeroPriceState).2.1.paymentStatus =
      PaymentStatus.paid := by
  have h := checkout_zeroTotal envAllOk zeroPriceState
    (by simp [zeroPriceState])
    (by intro x hx; rfl)
    (by norm_num [calculateTotalM, zeroPriceState, round2, roundHalfAway])
  exact ⟨h.1, h.2.1⟩

/-! ## C3: a stock reduction raises after payment -/

/-- C3: when the payment phase ends in `paid` and some `reduceStock` call
raises, the error is caught: `reduceStock` is invoked for exactly the items
up to and including the first failing one in insertion order,
`paymentStatus` stays `paid`, a critical diagnostic carrying the underlying
cause is logged, a confirmation is still sent, and `checkout()` returns
`true`. -/
theorem checkout_reduceFailure (env : Env) (s : OrderState)
    (hne : s.items ≠ [])
    (hstock : ∀ x ∈ s.items, env.checkStock x.id x.quantity = true)
    (hpay : 0 < (calculateTotalM s).1 →
      env.charge (calculateTotalM s).1 s.customerEmail s.orderId = true)
    (hred : ∃ x ∈ s.items, env.reduceStock x.id x.quantity ≠ none) :
    (processOrder env s).1 = true ∧
    (processOrder env s).2.1.paymentStatus = PaymentStatus.paid ∧
    (∃ pre it post cause,
      s.items = pre ++ it :: post ∧
      (∀ x ∈ pre, env.reduceStock x.id x.quantity = none) ∧
      env.reduceStock it.id it.quantity = some cause ∧
      (processOrder env s).2.2.filter Event.isReduceStock =
        (pre ++ [it]).map (fun x => Event.reduceStock x.id x.quantity) ∧
      Event.logCriticalError
        ("Критическая ошибка: не удалось уменьшить остатки для заказа "
          ++ s.orderId ++ " после оплаты.") cause ∈ (processOrder env s).2.2) ∧
    Event.orderConfirmation s.customerEmail s.orderId s.items
      (calculateTotalM s).1 PaymentStatus.paid ∈ (processOrder env s).2.2 := by
  have hlen : ¬ s.items.length = 0 := by
    simp [List.length_eq_zero, hne]
  have hlenpos : 0 < s.items.length := List.length_pos.mpr hne
  have hloop := checkStockLoop_allPass env s.items hstock
  obtain ⟨pre, it, post, cause, hsplit, hpreR, hitR⟩ :=
    exists_firstFail_reduce env s.items hred
  have hrloop := reduceStockLoop_firstFail env pre it post cause hpreR hitR
  rw [← hsplit] at hrloop
  have hrun : runReduce env { s with paymentStatus := PaymentStatus.paid } =
      (pre ++ [it]).map (fun x => Event.reduceStock x.id x.quantity) ++
        [Event.logCriticalError
          ("Критическая ошибка: не удалось уменьшить остатки для заказа "
            ++ s.orderId ++ " после оплаты.") cause] := by
    simp [runReduce, hrloop]
  have key : ∀ preEvts : List Event,
      (∀ e ∈ preEvts, e.isReduceStock = false) →
      (finishOrder env { s with paymentStatus := PaymentStatus.paid }
          (calculateTotalM s).1 preEvts).1 = true ∧
      (finishOrder env { s with paymentStatus := PaymentStatus.paid }
          (calculateTotalM s).1 preEvts).2.1.paymentStatus =
        PaymentStatus.paid ∧
      (finishOrder env { s with paymentStatus := PaymentStatus.paid }
          (calculateTotalM s).1 preEvts).2.2.filter Event.isReduceStock =
        (pre ++ [it]).map (fun x => Event.reduceStock x.id x.quantity) ∧
      Event.logCriticalError
        ("Критическая ошибка: не удалось уменьшить остатки для заказа "
          ++ s.orderId ++ " после оплаты.") cause ∈
        (finishOrder env { s with paymentStatus := PaymentStatus.paid }
          (calculateTotalM s).1 preEvts).2.2 ∧
      Event.orderConfirmation s.customerEmail s.orderId s.items
        (calculateTotalM s).1 PaymentStatus.paid ∈
        (finishOrder env { s with paymentStatus := PaymentStatus.paid }
          (calculateTotalM s).1 preEvts).2.2 := by
    intro preEvts hshape
    rw [finishOrder, hrun]
    refine ⟨rfl, rfl, ?_, by simp, by simp⟩
    rw [List.filter_append, List.filter_append, List.filter_append]
    have h1 : preEvts.filter Event.isReduceStock = [] := by
      rw [List.filter_eq_nil_iff]
      intro a ha
      simp [hshape a ha]
    have h2 : ((pre ++ [it]).map
        (fun x => Event.reduceStock x.id x.quantity)).filter
          Event.isReduceStock =
        (pre ++ [it]).map (fun x => Event.reduceStock x.id x.quantity) := by
      rw [List.filter_eq_self]
      intro a ha
      simp only [List.mem_map] at ha
      obtain ⟨x, _, rfl⟩ := ha
      rfl
    simp [h1, h2, List.filter, Event.isReduceStock]
  rcases le_or_lt (calculateTotalM s).1 0 with hle | hpos
  · have hpo : processOrder env s =
        finishOrder env { s with paymentStatus := PaymentStatus.paid }
          (calculateTotalM s).1
          (s.items.map (fun x => Event.checkStock x.id x.quantity) ++
            [Event.logWarn
              "Общая сумма заказа равна 0, но товары есть. Пропускаем оплату."]) := by
      simp [processOrder, hlen, hloop, hle, hlenpos]
    have hk := key (s.items.map (fun x => Event.checkStock x.id x.quantity) ++
      [Event.logWarn
        "Общая сумма заказа равна 0, но товары есть. Пропускаем оплату."]) (by
      intro e he
      simp only [List.mem_append, List.mem_map, List.mem_singleton] at he
      rcases he with ⟨x, _, rfl⟩ | rfl
      · rfl
      · rfl)
    rw [hpo]
    exact ⟨hk.1, hk.2.1, ⟨pre, it, post, cause, hsplit, hpreR, hitR,
      hk.2.2.1, hk.2.2.2.1⟩, hk.2.2.2.2⟩
  · have hch := hpay hpos
    have hpo : processOrder env s =
        finishOrder env { s with paymentStatus := PaymentStatus.paid }
          (calculateTotalM s).1
          (s.items.map (fun x => Event.checkStock x.id x.quantity) ++
            [Event.charge (calculateTotalM s).1 s.customerEmail s.orderId]) := by
      simp [processOrder, hlen, hloop, not_le.mpr hpos, hpos, hch]
    have hk := key (s.items.map (fun x => Event.checkStock x.id x.quantity) ++
      [Event.charge (calculateTotalM s).1 s.customerEmail s.orderId]) (by
      intro e he
      simp only [List.mem_append, List.mem_map, List.mem_singleton] at he
      rcases he with ⟨x, _, rfl⟩ | rfl
      · rfl
      · rfl)
    rw [hpo]
    exact ⟨hk.1, hk.2.1, ⟨pre, it, post, cause, hsplit, hpreR, hitR,
      hk.2.2.1, hk.2.2.2.1⟩, hk.2.2.2.2⟩

/-- Concrete instantiation of `checkout_reduceFailure`: reducing item `a`
raises, yet checkout succeeds with status `paid`. -/
theorem checkout_reduceFailure_witness :
    (processOrder envReduceFail witnessState).1 = true ∧
    (processOrder envReduceFail witnessState).2.1.paymentStatus =
      PaymentStatus.paid := by
  have h := checkout_reduceFailure envReduceFail witnessState
    (by simp [witnessState])
    (by intro x hx; rfl)
    (fun _ => rfl)
    ⟨witnessItemA, by simp [witnessState],
      by simp [envReduceFail, witnessItemA]⟩
  exact ⟨h.1, h.2.1⟩
